import Mathlib

/-!
Shallow embedding of the DS-STAR iterative solving engine
(`src/ds_star_core/services.py`, `src/ds_star_core/execution.py`,
`src/ds_star_core/utils.py`, `src/ds_star.py`) together with proofs of the
behavioural claims about it.

Python strings are modelled as Lean `String`s restricted to the ASCII
behaviour of `str.strip`, `str.lower` and `int(...)` that the code relies on.
External collaborators (language-model agents, the operating system) are
modelled as oracle functions supplied as parameters.
-/

namespace DSStarModel

/-- Model of Python `str.strip()`: drop whitespace from both ends. -/
def pyStrip (s : String) : String :=
  String.mk (((s.toList.dropWhile Char.isWhitespace).reverse.dropWhile
      Char.isWhitespace).reverse)

/-- Model of Python `str.lower()` (ASCII case folding, as used by the code). -/
def pyLower (s : String) : String :=
  String.mk (s.toList.map Char.toLower)

/-- Model of Python `a or b` on strings: the empty string is falsy. -/
def pyOr (a b : String) : String :=
  if a = "" then b else a

/-- Model of `_normalize_text` in `ds_star_core/services.py`:
`value.strip() if value else ""`. -/
def normalizeText (value : String) : String :=
  if value = "" then "" else pyStrip value

/-- Model of Python substring membership `needle in hay`. -/
def containsList (hay needle : List Char) : Bool :=
  match hay with
  | [] => needle.isEmpty
  | _ :: t => needle.isPrefixOf hay || containsList t needle

/-- String-level wrapper of `containsList`. -/
def containsSubstr (hay needle : String) : Bool :=
  containsList hay.toList needle.toList

/-- Parse a nonempty all-digit character list as a natural number. -/
def parseDigits (l : List Char) : Option Nat :=
  if l ≠ [] ∧ l.all Char.isDigit then
    some (l.foldl (fun acc c => acc * 10 + (c.toNat - 48)) 0)
  else
    none

/-- Model of Python `int(s)` on strings: optional sign and decimal digits
after trimming surrounding whitespace (digit-grouping underscores are not
modelled); `none` models a raised `ValueError`. -/
def pyIntChars : List Char → Option Int
  | [] => none
  | c :: rest =>
      if c = '+' then Option.map (fun n : Nat => (n : Int)) (parseDigits rest)
      else if c = '-' then Option.map (fun n : Nat => -(n : Int)) (parseDigits rest)
      else Option.map (fun n : Nat => (n : Int)) (parseDigits (c :: rest))

/-- String-level entry point of the `int(...)` model. -/
def pyInt (s : String) : Option Int :=
  pyIntChars (pyStrip s).toList

/-- Modelled from the spec (the dataclass module itself is not under `src/`):
`ExecutionResult = {success, output, error, traceback}` as described in §3 of
the specification and used throughout `services.py` and `execution.py`. -/
structure ExecutionResult where
  success : Bool
  output : String
  error : String := ""
  traceback : String := ""
deriving DecidableEq, Repr

/-- Modelled from the spec (the dataclass module itself is not under `src/`):
`DataDescription = {file_path, description, script}`. -/
structure DataDescription where
  file_path : String
  description : String
  script : String
deriving DecidableEq, Repr

/-- Modelled from the spec (the enum module itself is not under `src/`):
the verification verdict `SUFFICIENT | INSUFFICIENT`. -/
inductive VerificationResult where
  | SUFFICIENT
  | INSUFFICIENT
deriving DecidableEq, Repr

/-- Model of the `VerificationOutcome` dataclass in `services.py`. -/
structure VerificationOutcome where
  result : VerificationResult
  response : String
deriving DecidableEq, Repr

/-- Model of `VerificationService.evaluate` in `services.py`, applied to the
raw text returned by the verifier agent (the agent call is the oracle input). -/
def evaluate (raw : String) : VerificationOutcome :=
  let response := normalizeText raw
  let normalized := pyLower response
  let verdict :=
    if containsSubstr normalized "insufficient" then VerificationResult.INSUFFICIENT
    else if containsSubstr normalized "sufficient" then VerificationResult.SUFFICIENT
    else VerificationResult.INSUFFICIENT
  { result := verdict, response := response }

/-- Oracle describing what happens on the host while `PythonScriptRunner.run`
(`ds_star_core/execution.py`) executes one script: either the child process
completes with an exit code and captured streams, or a fault occurs at one of
the fault points of the function body (temp-file creation, temp-file writing,
`subprocess.run` timeout, any other `subprocess.run` exception). Fault
messages model `str(exc)` and `traceback.format_exc()`. -/
inductive SubprocessOutcome where
  | completed (returncode : Int) (stdout stderr : String)
  | createFault (message trace : String)
  | writeFault (message trace : String)
  | timeoutExpired
  | hostFault (message trace : String)
deriving DecidableEq, Repr

/-- Observable file-system / process events of one `PythonScriptRunner.run`
call, in program order. -/
inductive RunEvent where
  | createTemp
  | spawnProcess
  | unlinkTemp
deriving DecidableEq, Repr

/-- The `ExecutionResult` returned by `PythonScriptRunner.run` for each
subprocess outcome, following the branch structure of the source: exit code 0,
non-zero exit, `subprocess.TimeoutExpired`, and the catch-all
`except Exception` (which also receives creation/write faults). -/
def runResult : SubprocessOutcome → ExecutionResult
  | .completed rc out err =>
      if rc = 0 then { success := true, output := out }
      else { success := false, output := out, error := err, traceback := err }
  | .createFault msg tr => { success := false, output := "", error := msg, traceback := tr }
  | .writeFault msg tr => { success := false, output := "", error := msg, traceback := tr }
  | .timeoutExpired =>
      { success := false, output := "", error := "Execution timeout",
        traceback := "Script execution exceeded timeout limit" }
  | .hostFault msg tr => { success := false, output := "", error := msg, traceback := tr }

/-- The event trace of one `PythonScriptRunner.run` call. The temp file is
created by `tempfile.NamedTemporaryFile`; `os.unlink` sits in the `finally`
of the inner `try`, which is entered only after the `with` block writing the
file has completed. A fault while writing therefore skips the unlink, while
the timeout and the spawn-level exceptions run it before being caught. -/
def runEvents : SubprocessOutcome → List RunEvent
  | .completed _ _ _ => [.createTemp, .spawnProcess, .unlinkTemp]
  | .createFault _ _ => []
  | .writeFault _ _ => [.createTemp]
  | .timeoutExpired => [.createTemp, .spawnProcess, .unlinkTemp]
  | .hostFault _ _ => [.createTemp, .spawnProcess, .unlinkTemp]

/-- Model of `effective_timeout = timeout or self._settings.timeout` in
`PythonScriptRunner.run`: `none` models `None`, and `0` is falsy in Python. -/
def effectiveTimeout (timeout : Option Int) (defaultTimeout : Int) : Int :=
  match timeout with
  | none => defaultTimeout
  | some t => if t = 0 then defaultTimeout else t

/-- Model of `DSSTAR.execute_code` (`ds_star.py`): it forwards its integer
`timeout` argument to `PythonScriptRunner.run`, whose effective timeout is
computed by `effectiveTimeout`. Only the timeout plumbing is modelled here. -/
def executeCodeTimeout (timeout : Int) (defaultTimeout : Int) : Int :=
  effectiveTimeout (some timeout) defaultTimeout

/-- Model of `_summarize_traceback` (shared by `AnalyzerService` and
`SolutionExecutionService` in `services.py`). The summarizer oracle is `none`
when no configured summarizer exists; a configured summarizer returns `none`
to model a raised exception, which the source swallows. -/
def summarizeTraceback (summarizer : Option (String → Option String))
    (result : ExecutionResult) : String :=
  match summarizer with
  | none => normalizeText (pyOr result.traceback (pyOr result.error ""))
  | some f =>
      match f (pyOr result.traceback (pyOr result.error "")) with
      | some out => normalizeText out
      | none => normalizeText (pyOr result.traceback (pyOr result.error ""))

/-- Oracle environment for `SolutionExecutionService` (`services.py`): the
sandbox runner (indexed by how many runs happened before, so distinct runs may
observe distinct outcomes), the solution debugger, the optional summarizer and
the attempt budget. `debuggerConfigured` models
`debugger is not None and debugger.configured`. -/
structure SolutionExecEnv where
  run : Nat → String → ExecutionResult
  debuggerConfigured : Bool
  debug : String → String → String → String
  summarizer : Option (String → Option String)
  max_attempts : Nat

/-- Model of `SolutionExecutionService._can_debug_solution`. -/
def canDebugSolution (env : SolutionExecEnv) (attempt : Nat) : Bool :=
  decide (attempt < env.max_attempts - 1) && env.debuggerConfigured

/-- Result of one debug-retry loop, instrumented with the ordered trace of
sandbox runs performed (script and result of each) and the number of fixer
invocations. -/
structure ExecOutcome where
  code : String
  result : ExecutionResult
  trace : List (String × ExecutionResult)
  fixes : Nat
deriving DecidableEq, Repr

/-- The `for attempt in range(max_attempts)` loop of
`SolutionExecutionService.execute`, written as structural recursion on the
remaining attempts (`remaining = max_attempts - attempt`). On a failed run,
when `_can_debug_solution(attempt)` is false the source `continue`s to the
next attempt with the script unchanged. -/
def executeFrom (env : SolutionExecEnv) (dataInfo : String) :
    Nat → Nat → String → ExecutionResult → List (String × ExecutionResult) →
    Nat → ExecOutcome
  | 0, _, script, lastResult, trace, fixes =>
      { code := script, result := lastResult, trace := trace, fixes := fixes }
  | remaining + 1, attempt, script, _, trace, fixes =>
      if (env.run trace.length script).success then
        { code := script, result := env.run trace.length script,
          trace := trace ++ [(script, env.run trace.length script)], fixes := fixes }
      else if canDebugSolution env attempt then
        executeFrom env dataInfo remaining (attempt + 1)
          (env.debug script (summarizeTraceback env.summarizer (env.run trace.length script))
            dataInfo)
          (env.run trace.length script)
          (trace ++ [(script, env.run trace.length script)]) (fixes + 1)
      else
        executeFrom env dataInfo remaining (attempt + 1) script
          (env.run trace.length script)
          (trace ++ [(script, env.run trace.length script)]) fixes

/-- Model of `SolutionExecutionService.execute`: the loop starts at attempt 0
with `last_result = ExecutionResult(success=False, output="")`. -/
def executeService (env : SolutionExecEnv) (dataInfo script : String) : ExecOutcome :=
  executeFrom env dataInfo env.max_attempts 0 script
    { success := false, output := "" } [] 0

/-- Oracle environment for `AnalyzerService` (`services.py`): the analyzer
agent's script generator, the sandbox runner, the analyzer debugger, the
optional summarizer, the attempt budget and the retrieval settings. -/
structure AnalyzerEnv where
  generateScript : String → String
  run : Nat → String → ExecutionResult
  debuggerConfigured : Bool
  debug : String → String → String
  summarizer : Option (String → Option String)
  max_attempts : Nat
  use_retriever : Bool := false
  top_k_files : Nat := 10

/-- Model of `AnalyzerService._can_debug_analyzer`. -/
def canDebugAnalyzer (env : AnalyzerEnv) (attempt : Nat) : Bool :=
  decide (attempt < env.max_attempts - 1) && env.debuggerConfigured

/-- The error description `_analyze_file` stores when an attempt fails and no
debugging is possible. -/
def errorDescription (maxAttempts : Nat) (result : ExecutionResult) : String :=
  "ERROR: Failed to analyze file after " ++ toString maxAttempts ++
    " attempts.\n" ++ normalizeText (pyOr result.error result.output)

/-- Result of analysing one file, instrumented like `ExecOutcome`. -/
structure AnalyzeOutcome where
  desc : DataDescription
  trace : List (String × ExecutionResult)
  fixes : Nat
deriving DecidableEq, Repr

/-- The `for attempt in range(max_attempts)` loop of
`AnalyzerService._analyze_file`. On success the source sets the description
and `break`s; on a failure it either debugs and `continue`s, or stores the
error description and falls through to the next attempt with the script
unchanged. -/
def analyzeFileFrom (env : AnalyzerEnv) (dataFile : String) :
    Nat → Nat → String → String → List (String × ExecutionResult) → Nat →
    AnalyzeOutcome
  | 0, _, script, description, trace, fixes =>
      { desc := { file_path := dataFile, description := description, script := script },
        trace := trace, fixes := fixes }
  | remaining + 1, attempt, script, description, trace, fixes =>
      if (env.run trace.length script).success then
        { desc := { file_path := dataFile,
                    description := normalizeText (env.run trace.length script).output,
                    script := script },
          trace := trace ++ [(script, env.run trace.length script)], fixes := fixes }
      else if canDebugAnalyzer env attempt then
        analyzeFileFrom env dataFile remaining (attempt + 1)
          (env.debug script (summarizeTraceback env.summarizer (env.run trace.length script)))
          description (trace ++ [(script, env.run trace.length script)]) (fixes + 1)
      else
        analyzeFileFrom env dataFile remaining (attempt + 1) script
          (errorDescription env.max_attempts (env.run trace.length script))
          (trace ++ [(script, env.run trace.length script)]) fixes

/-- Model of `AnalyzerService._analyze_file`: the initial script comes from
`analyzer.generate_script(data_file)` and the description starts empty. -/
def analyzeFile (env : AnalyzerEnv) (dataFile : String) : AnalyzeOutcome :=
  analyzeFileFrom env dataFile env.max_attempts 0 (env.generateScript dataFile) "" [] 0

/-- Model of `AnalyzerService._retrieve_relevant`: a deterministic prefix
take; the query is accepted but unused. -/
def retrieveRelevant (env : AnalyzerEnv) (query : String)
    (descriptions : List DataDescription) : List DataDescription :=
  let _ := query
  descriptions.take env.top_k_files

/-- Model of `AnalyzerService.select_relevant`. -/
def selectRelevant (env : AnalyzerEnv) (query : String)
    (descriptions : List DataDescription) : List DataDescription :=
  if ¬(env.use_retriever = true ∧ descriptions.length > env.top_k_files) then
    descriptions
  else
    retrieveRelevant env query descriptions

/-- Model of `PlanningService.truncate_plan` (`services.py`). -/
def truncatePlan (plan : List String) (decision : String) : List String :=
  if decision = "" then plan
  else
    let decisionNormalized := pyLower (pyStrip decision)
    if decisionNormalized = "add step" then plan
    else
      match pyInt decision with
      | none => plan
      | some stepIndex =>
          if stepIndex ≤ 0 then []
          else plan.take (min plan.length stepIndex.toNat)

/-- Model of `_to_lines` in `ds_star_core/utils.py` for `DataDescription`
records: a `## path` header when the path is nonempty, the stripped
description when nonempty, and a blank line per record. -/
def toLines : List DataDescription → List String
  | [] => []
  | d :: rest =>
      ((if d.file_path ≠ "" then ["## " ++ d.file_path] else []) ++
        (if d.description ≠ "" then [pyStrip d.description] else []) ++ [""]) ++
        toLines rest

/-- Model of `format_data_info` in `ds_star_core/utils.py`. -/
def formatDataInfo (descriptions : List DataDescription) : String :=
  if descriptions = [] then ""
  else pyStrip (String.intercalate "\n" (toLines descriptions))

/-- Model of `DSSTAR._execution_observation` (`ds_star.py`). -/
def executionObservation : Option ExecutionResult → String
  | none => ""
  | some e =>
      if e.success then pyStrip (pyOr e.output "")
      else pyStrip (pyOr e.error (pyOr e.output ""))

/-- The orchestrator configuration relevant to the state machine. -/
structure Config where
  max_refinement_rounds : Nat

/-- Model of the `DSStarState` record threaded through the LangGraph nodes of
`DSSTAR` (`ds_star.py`). Keys the source reads through `state.get` with a
default are `Option`-valued, with the default applied at the use site exactly
as in the source. -/
structure DSStarState where
  query : String
  data_files : List String
  data_descriptions : List DataDescription
  plan : List String
  code : String
  last_execution : Option ExecutionResult
  execution_results : List String
  iteration : Nat
  verification : Option VerificationResult
  verifier_response : String
  router_decision : Option String
  finalization_reason : Option String
  final_code : String
  final_plan : List String
  final_execution_results : List String

/-- The initial state built by `DSSTAR.solve`: `query` and `data_files` set,
`plan = []`, `execution_results = []`, `iteration = 0`, every other key
absent. -/
def initialState (query : String) (dataFiles : List String) : DSStarState :=
  { query := query
    data_files := dataFiles
    data_descriptions := []
    plan := []
    code := ""
    last_execution := none
    execution_results := []
    iteration := 0
    verification := none
    verifier_response := ""
    router_decision := none
    finalization_reason := none
    final_code := ""
    final_plan := []
    final_execution_results := [] }

/-- Model of `DSSTAR._node_execute`: run the solution through the
debug-retry executor and append the execution observation to the history. -/
def applyExecute (env : SolutionExecEnv) (s : DSStarState) : DSStarState :=
  let out := executeService env (formatDataInfo s.data_descriptions) s.code
  { s with
    code := out.code
    last_execution := some out.result
    execution_results := s.execution_results ++ [executionObservation (some out.result)] }

/-- Model of `DSSTAR._node_verify`, applied to the raw verifier response (the
agent call is the oracle input): classify, bump `iteration` on INSUFFICIENT,
and set the finalization reason per the if/elif of the source. -/
def applyVerify (cfg : Config) (raw : String) (s : DSStarState) : DSStarState :=
  let outcome := evaluate raw
  let iteration :=
    if outcome.result = VerificationResult.INSUFFICIENT then s.iteration + 1
    else s.iteration
  let s' := { s with
    verification := some outcome.result
    verifier_response := outcome.response
    iteration := iteration }
  if outcome.result = VerificationResult.SUFFICIENT then
    { s' with finalization_reason := some "verified" }
  else if iteration ≥ cfg.max_refinement_rounds then
    { s' with finalization_reason := some "max_rounds" }
  else s'

/-- Model of `DSSTAR._route_after_verify`. -/
def routeAfterVerify (cfg : Config) (s : DSStarState) : String :=
  if s.verification = some VerificationResult.SUFFICIENT then "verified"
  else if s.iteration ≥ cfg.max_refinement_rounds then "maxed"
  else "continue"

/-- The phases of the compiled LangGraph in `DSSTAR._build_graph`. -/
inductive Phase where
  | analyze
  | plannerInitial
  | coderInitial
  | execute
  | verify
  | router
  | plannerNext
  | coderNext
  | finalize
  | done
deriving DecidableEq, Repr

/-- The conditional-edge map after `verify` in `_build_graph`:
`"verified" ↦ finalize`, `"maxed" ↦ finalize`, `"continue" ↦ router`. -/
def phaseAfterVerify (cfg : Config) (s : DSStarState) : Phase :=
  if routeAfterVerify cfg s = "verified" then Phase.finalize
  else if routeAfterVerify cfg s = "maxed" then Phase.finalize
  else Phase.router

/-- Model of `DSSTAR._node_planner_next`: truncate the plan by the router
decision (default `"Add Step"` when absent) and append the generated step. -/
def applyPlannerNext (nextStep : String) (s : DSStarState) : DSStarState :=
  let plan := truncatePlan s.plan (s.router_decision.getD "Add Step")
  { s with plan := plan ++ [nextStep] }

/-- Model of `DSSTAR._node_finalize`: snapshot code, plan, observation
history, and default the finalization reason to `"verified"` when absent. -/
def applyFinalize (finalCode : String) (s : DSStarState) : DSStarState :=
  { s with
    final_code := finalCode
    final_plan := s.plan
    final_execution_results := s.execution_results
    finalization_reason := some (s.finalization_reason.getD "verified") }

/-- One step of the compiled graph of `DSSTAR._build_graph`. Each constructor
carries the outputs of the external capabilities its node invokes (agent
responses, sandbox behaviour) and applies the node's state update; the target
phase follows the graph's edges, with the conditional edge after `verify`. -/
inductive Step (cfg : Config) : Phase × DSStarState → Phase × DSStarState → Prop
  | analyze (s : DSStarState) (descs : List DataDescription) :
      Step cfg (Phase.analyze, s)
        (Phase.plannerInitial, { s with data_descriptions := descs })
  | plannerInitial (s : DSStarState) (initialStep : String) :
      Step cfg (Phase.plannerInitial, s)
        (Phase.coderInitial, { s with plan := [initialStep] })
  | coderInitial (s : DSStarState) (code : String) :
      Step cfg (Phase.coderInitial, s)
        (Phase.execute, { s with code := code, execution_results := [] })
  | execute (s : DSStarState) (env : SolutionExecEnv) :
      Step cfg (Phase.execute, s) (Phase.verify, applyExecute env s)
  | verify (s : DSStarState) (raw : String) :
      Step cfg (Phase.verify, s)
        (phaseAfterVerify cfg (applyVerify cfg raw s), applyVerify cfg raw s)
  | router (s : DSStarState) (decision : String) :
      Step cfg (Phase.router, s)
        (Phase.plannerNext, { s with router_decision := some (normalizeText decision) })
  | plannerNext (s : DSStarState) (nextStep : String) :
      Step cfg (Phase.plannerNext, s) (Phase.coderNext, applyPlannerNext nextStep s)
  | coderNext (s : DSStarState) (code : String) :
      Step cfg (Phase.coderNext, s) (Phase.execute, { s with code := code })
  | finalize (s : DSStarState) (finalCode : String) :
      Step cfg (Phase.finalize, s) (Phase.done, applyFinalize finalCode s)

/-- All-failing sandbox environment for the solution loop, with no configured
debugger: every run exits non-zero. -/
def failEnvS : SolutionExecEnv :=
  { run := fun _ _ => { success := false, output := "", error := "boom", traceback := "tb" }
    debuggerConfigured := false
    debug := fun s _ _ => s
    summarizer := none
    max_attempts := 3 }

/-- All-failing sandbox environment for the analyzer loop, with no configured
debugger. -/
def failEnvA : AnalyzerEnv :=
  { generateScript := fun _ => "inspect"
    run := fun _ _ => { success := false, output := "", error := "boom", traceback := "tb" }
    debuggerConfigured := false
    debug := fun s _ => s
    summarizer := none
    max_attempts := 3 }

/-- Sandbox environment whose first run succeeds. -/
def okEnvS : SolutionExecEnv :=
  { run := fun _ _ => { success := true, output := "42\n" }
    debuggerConfigured := true
    debug := fun s _ _ => s
    summarizer := none
    max_attempts := 3 }

/- ------------------------------------------------------------------ -/
/- Helper lemmas                                                      -/
/- ------------------------------------------------------------------ -/

theorem containsList_iff (hay needle : List Char) :
    containsList hay needle = true ↔ needle <:+: hay := by
  induction hay with
  | nil => simp [containsList]
  | cons c t ih =>
    rw [containsList]
    simp only [Bool.or_eq_true, List.isPrefixOf_iff_prefix, ih]
    exact (List.infix_cons_iff).symm

theorem pyStrip_toList_within (s : String) : (pyStrip s).toList <:+: s.toList := by
  have h1 : s.toList.dropWhile Char.isWhitespace <:+ s.toList :=
    List.dropWhile_suffix _
  have h2 : (s.toList.dropWhile Char.isWhitespace).reverse.dropWhile Char.isWhitespace
      <:+ (s.toList.dropWhile Char.isWhitespace).reverse :=
    List.dropWhile_suffix _
  have h3 : ((s.toList.dropWhile Char.isWhitespace).reverse.dropWhile
        Char.isWhitespace).reverse <+: s.toList.dropWhile Char.isWhitespace := by
    have := List.reverse_prefix.mpr h2
    rwa [List.reverse_reverse] at this
  exact (h3.isInfix).trans (h1.isInfix)

theorem toList_pyLower (s : String) : (pyLower s).toList = s.toList.map Char.toLower := rfl

theorem digit_toLower (c : Char) (h : c.isDigit = true) : Char.toLower c = c := by
  simp [Char.isDigit] at h
  obtain ⟨h1, h2⟩ := h
  have hle : Char.toNat c ≤ 57 := UInt32.toNat_le_of_le (by decide) h2
  unfold Char.toLower
  rw [if_neg]
  rintro ⟨ha, _⟩
  omega

theorem parseDigits_all_digit {l : List Char} {n : Nat} (h : parseDigits l = some n) :
    l ≠ [] ∧ l.all Char.isDigit = true := by
  unfold parseDigits at h
  split at h
  · exact (by assumption)
  · exact absurd h (by simp)

theorem pyInt_some_not_addstep {s : String} {k : Int} (h : pyInt s = some k) :
    pyLower (pyStrip s) ≠ "add step" := by
  intro heq
  have hdata : (pyStrip s).toList.map Char.toLower = "add step".toList :=
    congrArg String.toList heq
  unfold pyInt at h
  cases hl : (pyStrip s).toList with
  | nil => rw [hl] at h; exact absurd h (by simp [pyIntChars])
  | cons c rest =>
    rw [hl] at hdata
    have hstep : ("add step".toList) =
        'a' :: 'd' :: 'd' :: ' ' :: 's' :: 't' :: 'e' :: 'p' :: [] := rfl
    rw [hstep, List.map_cons, List.cons.injEq] at hdata
    obtain ⟨hc, -⟩ := hdata
    rw [hl] at h
    simp only [pyIntChars] at h
    by_cases hplus : c = '+'
    · rw [hplus] at hc; exact absurd hc (by decide)
    · by_cases hminus : c = '-'
      · rw [hminus] at hc; exact absurd hc (by decide)
      · rw [if_neg hplus, if_neg hminus] at h
        obtain ⟨n, hn, -⟩ := Option.map_eq_some'.mp h
        obtain ⟨-, hall⟩ := parseDigits_all_digit hn
        have hcd : c.isDigit = true := by
          have := List.all_eq_true.mp hall c (by simp)
          simpa using this
        rw [digit_toLower c hcd] at hc
        rw [hc] at hcd
        exact absurd hcd (by decide)

theorem pyInt_empty : pyInt "" = none := rfl

theorem executeFrom_trace_le (env : SolutionExecEnv) (d : String) :
    ∀ (rem att : Nat) (sc : String) (last : ExecutionResult)
      (tr : List (String × ExecutionResult)) (fx : Nat),
      (executeFrom env d rem att sc last tr fx).trace.length ≤ tr.length + rem := by
  intro rem
  induction rem with
  | zero => intro att sc last tr fx; simp [executeFrom]
  | succ n ih =>
    intro att sc last tr fx
    rw [executeFrom]
    split
    · simp
    · split
      · have := ih (att + 1)
          (env.debug sc (summarizeTraceback env.summarizer (env.run tr.length sc)) d)
          (env.run tr.length sc) (tr ++ [(sc, env.run tr.length sc)]) (fx + 1)
        simp only [List.length_append, List.length_cons, List.length_nil] at this
        omega
      · have := ih (att + 1) sc (env.run tr.length sc)
          (tr ++ [(sc, env.run tr.length sc)]) fx
        simp only [List.length_append, List.length_cons, List.length_nil] at this
        omega

theorem executeFrom_fixes_le (env : SolutionExecEnv) (d : String) :
    ∀ (rem att : Nat) (sc : String) (last : ExecutionResult)
      (tr : List (String × ExecutionResult)) (fx : Nat),
      (executeFrom env d rem att sc last tr fx).fixes ≤
        fx + (env.max_attempts - 1 - att) := by
  intro rem
  induction rem with
  | zero => intro att sc last tr fx; simp [executeFrom]
  | succ n ih =>
    intro att sc last tr fx
    rw [executeFrom]
    split
    · simp
    · split
      · rename_i hdbg
        have hlt : att < env.max_attempts - 1 := by
          have := (Bool.and_eq_true _ _).mp hdbg
          exact of_decide_eq_true this.1
        have := ih (att + 1)
          (env.debug sc (summarizeTraceback env.summarizer (env.run tr.length sc)) d)
          (env.run tr.length sc) (tr ++ [(sc, env.run tr.length sc)]) (fx + 1)
        omega
      · have := ih (att + 1) sc (env.run tr.length sc)
          (tr ++ [(sc, env.run tr.length sc)]) fx
        omega

theorem executeFrom_dropLast_failed (env : SolutionExecEnv) (d : String) :
    ∀ (rem att : Nat) (sc : String) (last : ExecutionResult)
      (tr : List (String × ExecutionResult)) (fx : Nat),
      (∀ p ∈ tr, p.2.success = false) →
      ∀ p ∈ (executeFrom env d rem att sc last tr fx).trace.dropLast,
        p.2.success = false := by
  intro rem
  induction rem with
  | zero =>
    intro att sc last tr fx htr p hp
    exact htr p (List.dropLast_sublist tr |>.mem hp)
  | succ n ih =>
    intro att sc last tr fx htr
    rw [executeFrom]
    split
    · intro p hp
      rw [List.dropLast_concat] at hp
      exact htr p hp
    · rename_i hfail
      have hfail' : (env.run tr.length sc).success = false :=
        Bool.not_eq_true _ |>.mp hfail
      have hext : ∀ p ∈ tr ++ [(sc, env.run tr.length sc)], p.2.success = false := by
        intro p hp
        rcases List.mem_append.mp hp with h | h
        · exact htr p h
        · rcases List.mem_singleton.mp h with rfl
          exact hfail'
      split
      · exact ih (att + 1) _ _ _ (fx + 1) hext
      · exact ih (att + 1) _ _ _ fx hext

theorem executeFrom_result_last (env : SolutionExecEnv) (d : String) :
    ∀ (rem att : Nat) (sc : String) (last : ExecutionResult)
      (tr : List (String × ExecutionResult)) (fx : Nat),
      (∀ q, tr.getLast? = some q → last = q.2) →
      ∀ p, (executeFrom env d rem att sc last tr fx).trace.getLast? = some p →
        (executeFrom env d rem att sc last tr fx).result = p.2 := by
  intro rem
  induction rem with
  | zero => intro att sc last tr fx hinv p hp; exact hinv p hp
  | succ n ih =>
    intro att sc last tr fx hinv
    rw [executeFrom]
    split
    · intro p hp
      rw [List.getLast?_concat] at hp
      cases hp
      rfl
    · have hinv' : ∀ q, (tr ++ [(sc, env.run tr.length sc)]).getLast? = some q →
          env.run tr.length sc = q.2 := by
        intro q hq
        rw [List.getLast?_concat] at hq
        cases hq
        rfl
      split
      · exact ih (att + 1) _ _ _ (fx + 1) hinv'
      · exact ih (att + 1) _ _ _ fx hinv'

theorem executeFrom_success_last (env : SolutionExecEnv) (d : String) :
    ∀ (rem att : Nat) (sc : String) (last : ExecutionResult)
      (tr : List (String × ExecutionResult)) (fx : Nat),
      last.success = false →
      (executeFrom env d rem att sc last tr fx).result.success = true →
      (executeFrom env d rem att sc last tr fx).trace.getLast? =
        some ((executeFrom env d rem att sc last tr fx).code,
          (executeFrom env d rem att sc last tr fx).result) := by
  intro rem
  induction rem with
  | zero =>
    intro att sc last tr fx hlast hsucc
    rw [executeFrom] at hsucc ⊢
    simp only at hsucc
    rw [hlast] at hsucc
    cases hsucc
  | succ n ih =>
    intro att sc last tr fx hlast hsucc
    rw [executeFrom] at hsucc ⊢
    split at hsucc
    · rename_i hr
      rw [if_pos hr]
      simp [List.getLast?_concat]
    · rename_i hr
      have hrf : (env.run tr.length sc).success = false := Bool.not_eq_true _ |>.mp hr
      rw [if_neg hr]
      split at hsucc
      · rename_i hdbg
        rw [if_pos hdbg]
        exact ih (att + 1) _ _ _ (fx + 1) hrf hsucc
      · rename_i hdbg
        rw [if_neg hdbg]
        exact ih (att + 1) _ _ _ fx hrf hsucc

theorem executeFrom_nofixer (env : SolutionExecEnv) (d : String)
    (hdbg : env.debuggerConfigured = false)
    (hfail : ∀ (k : Nat) (s : String), (env.run k s).success = false) :
    ∀ (rem att : Nat) (sc : String) (last : ExecutionResult)
      (tr : List (String × ExecutionResult)) (fx : Nat),
      (executeFrom env d rem att sc last tr fx).code = sc ∧
      (executeFrom env d rem att sc last tr fx).fixes = fx ∧
      (executeFrom env d rem att sc last tr fx).trace.length = tr.length + rem ∧
      (executeFrom env d rem att sc last tr fx).result =
        (if rem = 0 then last else env.run (tr.length + rem - 1) sc) := by
  intro rem
  induction rem with
  | zero => intro att sc last tr fx; simp [executeFrom]
  | succ n ih =>
    intro att sc last tr fx
    rw [executeFrom]
    have hnd : canDebugSolution env att = false := by
      simp [canDebugSolution, hdbg]
    simp only [hfail tr.length sc, Bool.false_eq_true, if_false, hnd]
    obtain ⟨h1, h2, h3, h4⟩ := ih (att + 1) sc (env.run tr.length sc)
      (tr ++ [(sc, env.run tr.length sc)]) fx
    refine ⟨h1, h2, ?_, ?_⟩
    · rw [h3]; simp; omega
    · rw [h4]
      cases n with
      | zero => simp
      | succ m =>
        have : tr.length + 1 + (m + 1) - 1 = tr.length + (m + 1 + 1) - 1 := by omega
        simp only [List.length_append, List.length_cons, List.length_nil,
          Nat.add_zero, this]
        simp

/- Analyzer-loop analogues of the lemmas above. -/

theorem analyzeFileFrom_trace_le (env : AnalyzerEnv) (f : String) :
    ∀ (rem att : Nat) (sc desc : String)
      (tr : List (String × ExecutionResult)) (fx : Nat),
      (analyzeFileFrom env f rem att sc desc tr fx).trace.length ≤ tr.length + rem := by
  intro rem
  induction rem with
  | zero => intro att sc desc tr fx; simp [analyzeFileFrom]
  | succ n ih =>
    intro att sc desc tr fx
    rw [analyzeFileFrom]
    split
    · simp
    · split
      · have := ih (att + 1)
          (env.debug sc (summarizeTraceback env.summarizer (env.run tr.length sc)))
          desc (tr ++ [(sc, env.run tr.length sc)]) (fx + 1)
        simp only [List.length_append, List.length_cons, List.length_nil] at this
        omega
      · have := ih (att + 1) sc (errorDescription env.max_attempts (env.run tr.length sc))
          (tr ++ [(sc, env.run tr.length sc)]) fx
        simp only [List.length_append, List.length_cons, List.length_nil] at this
        omega

theorem analyzeFileFrom_fixes_le (env : AnalyzerEnv) (f : String) :
    ∀ (rem att : Nat) (sc desc : String)
      (tr : List (String × ExecutionResult)) (fx : Nat),
      (analyzeFileFrom env f rem att sc desc tr fx).fixes ≤
        fx + (env.max_attempts - 1 - att) := by
  intro rem
  induction rem with
  | zero => intro att sc desc tr fx; simp [analyzeFileFrom]
  | succ n ih =>
    intro att sc desc tr fx
    rw [analyzeFileFrom]
    split
    · simp
    · split
      · rename_i hdbg
        have hlt : att < env.max_attempts - 1 := by
          have := (Bool.and_eq_true _ _).mp hdbg
          exact of_decide_eq_true this.1
        have := ih (att + 1)
          (env.debug sc (summarizeTraceback env.summarizer (env.run tr.length sc)))
          desc (tr ++ [(sc, env.run tr.length sc)]) (fx + 1)
        omega
      · have := ih (att + 1) sc (errorDescription env.max_attempts (env.run tr.length sc))
          (tr ++ [(sc, env.run tr.length sc)]) fx
        omega

theorem analyzeFileFrom_dropLast_failed (env : AnalyzerEnv) (f : String) :
    ∀ (rem att : Nat) (sc desc : String)
      (tr : List (String × ExecutionResult)) (fx : Nat),
      (∀ p ∈ tr, p.2.success = false) →
      ∀ p ∈ (analyzeFileFrom env f rem att sc desc tr fx).trace.dropLast,
        p.2.success = false := by
  intro rem
  induction rem with
  | zero =>
    intro att sc desc tr fx htr p hp
    exact htr p (List.dropLast_sublist tr |>.mem hp)
  | succ n ih =>
    intro att sc desc tr fx htr
    rw [analyzeFileFrom]
    split
    · intro p hp
      rw [List.dropLast_concat] at hp
      exact htr p hp
    · rename_i hfail
      have hfail' : (env.run tr.length sc).success = false :=
        Bool.not_eq_true _ |>.mp hfail
      have hext : ∀ p ∈ tr ++ [(sc, env.run tr.length sc)], p.2.success = false := by
        intro p hp
        rcases List.mem_append.mp hp with h | h
        · exact htr p h
        · rcases List.mem_singleton.mp h with rfl
          exact hfail'
      split
      · exact ih (att + 1) _ _ _ (fx + 1) hext
      · exact ih (att + 1) _ _ _ fx hext

theorem analyzeFileFrom_success_last (env : AnalyzerEnv) (f : String) :
    ∀ (rem att : Nat) (sc desc : String)
      (tr : List (String × ExecutionResult)) (fx : Nat),
      (∀ p ∈ tr, p.2.success = false) →
      ∀ p, (analyzeFileFrom env f rem att sc desc tr fx).trace.getLast? = some p →
        p.2.success = true →
        (analyzeFileFrom env f rem att sc desc tr fx).desc.script = p.1 ∧
        (analyzeFileFrom env f rem att sc desc tr fx).desc.description =
          normalizeText p.2.output := by
  intro rem
  induction rem with
  | zero =>
    intro att sc desc tr fx htr p hp hsucc
    rw [analyzeFileFrom] at hp
    have hmem : p ∈ tr := by
      obtain ⟨hne, heq⟩ := List.mem_getLast?_eq_getLast (Option.mem_def.mpr hp)
      rw [heq]
      exact List.getLast_mem hne
    rw [htr p hmem] at hsucc
    cases hsucc
  | succ n ih =>
    intro att sc desc tr fx htr
    rw [analyzeFileFrom]
    split
    · intro p hp hsucc
      simp only at hp
      rw [List.getLast?_concat] at hp
      cases hp
      exact ⟨rfl, rfl⟩
    · rename_i hfail
      have hfail' : (env.run tr.length sc).success = false :=
        Bool.not_eq_true _ |>.mp hfail
      have hext : ∀ p ∈ tr ++ [(sc, env.run tr.length sc)], p.2.success = false := by
        intro p hp
        rcases List.mem_append.mp hp with h | h
        · exact htr p h
        · rcases List.mem_singleton.mp h with rfl
          exact hfail'
      split
      · exact ih (att + 1) _ _ _ (fx + 1) hext
      · exact ih (att + 1) _ _ _ fx hext

theorem analyzeFileFrom_nofixer (env : AnalyzerEnv) (f : String)
    (hdbg : env.debuggerConfigured = false)
    (hfail : ∀ (k : Nat) (s : String), (env.run k s).success = false) :
    ∀ (rem att : Nat) (sc desc : String)
      (tr : List (String × ExecutionResult)) (fx : Nat),
      (analyzeFileFrom env f rem att sc desc tr fx).desc.script = sc ∧
      (analyzeFileFrom env f rem att sc desc tr fx).fixes = fx ∧
      (analyzeFileFrom env f rem att sc desc tr fx).trace.length = tr.length + rem ∧
      (analyzeFileFrom env f rem att sc desc tr fx).desc.description =
        (if rem = 0 then desc
          else errorDescription env.max_attempts (env.run (tr.length + rem - 1) sc)) := by
  intro rem
  induction rem with
  | zero => intro att sc desc tr fx; simp [analyzeFileFrom]
  | succ n ih =>
    intro att sc desc tr fx
    rw [analyzeFileFrom]
    have hnd : canDebugAnalyzer env att = false := by
      simp [canDebugAnalyzer, hdbg]
    simp only [hfail tr.length sc, Bool.false_eq_true, if_false, hnd]
    obtain ⟨h1, h2, h3, h4⟩ := ih (att + 1) sc
      (errorDescription env.max_attempts (env.run tr.length sc))
      (tr ++ [(sc, env.run tr.length sc)]) fx
    refine ⟨h1, h2, ?_, ?_⟩
    · rw [h3]; simp; omega
    · rw [h4]
      cases n with
      | zero => simp
      | succ m =>
        have : tr.length + 1 + (m + 1) - 1 = tr.length + (m + 1 + 1) - 1 := by omega
        simp only [List.length_append, List.length_cons, List.length_nil,
          Nat.add_zero, this]
        simp

/- ------------------------------------------------------------------ -/
/- Claim theorems                                                     -/
/- ------------------------------------------------------------------ -/

theorem truncatePlan_addstep (plan : List String) (decision : String)
    (h : pyLower (pyStrip decision) = "add step") :
    truncatePlan plan decision = plan := by
  have hd : decision ≠ "" := by
    intro e
    rw [e] at h
    exact absurd h (by decide)
  unfold truncatePlan
  rw [if_neg hd]
  simp only [h, if_true]

theorem truncatePlan_nonint (plan : List String) (decision : String)
    (h : pyInt decision = none) :
    truncatePlan plan decision = plan := by
  by_cases hd : decision = ""
  · unfold truncatePlan
    rw [if_pos hd]
  · unfold truncatePlan
    rw [if_neg hd]
    by_cases hstep : pyLower (pyStrip decision) = "add step"
    · simp only [hstep, if_true]
    · simp only [hstep, if_false, h]

theorem truncatePlan_int_nonpos (plan : List String) (decision : String) (k : Int)
    (h : pyInt decision = some k) (hk : k ≤ 0) :
    truncatePlan plan decision = [] := by
  have hd : decision ≠ "" := by
    intro e
    rw [e, pyInt_empty] at h
    cases h
  have hstep := pyInt_some_not_addstep h
  unfold truncatePlan
  rw [if_neg hd]
  simp only [hstep, if_false, h]
  rw [if_pos hk]

theorem truncatePlan_int_pos (plan : List String) (decision : String) (k : Int)
    (h : pyInt decision = some k) (hk : 1 ≤ k) :
    truncatePlan plan decision = plan.take (min plan.length k.toNat) := by
  have hd : decision ≠ "" := by
    intro e
    rw [e, pyInt_empty] at h
    cases h
  have hstep := pyInt_some_not_addstep h
  unfold truncatePlan
  rw [if_neg hd]
  simp only [hstep, if_false, h]
  rw [if_neg (by omega)]

/-- C2: `VerificationService.evaluate` classifies by case-insensitive
substring search with precedence "insufficient" before "sufficient",
defaulting to INSUFFICIENT; the spec's four example responses classify as
stated, and no response that omits the substring "sufficient"
(case-insensitively) can yield SUFFICIENT. -/
theorem C2_verification_classification :
    (∀ raw : String,
        (evaluate raw).result =
          (if containsSubstr (pyLower (normalizeText raw)) "insufficient" then
            VerificationResult.INSUFFICIENT
          else if containsSubstr (pyLower (normalizeText raw)) "sufficient" then
            VerificationResult.SUFFICIENT
          else VerificationResult.INSUFFICIENT)) ∧
    (evaluate "The plan is INSUFFICIENT because...").result =
      VerificationResult.INSUFFICIENT ∧
    (evaluate "Sufficient.").result = VerificationResult.SUFFICIENT ∧
    (evaluate "").result = VerificationResult.INSUFFICIENT ∧
    (evaluate "unclear").result = VerificationResult.INSUFFICIENT ∧
    (∀ raw : String, (evaluate raw).result = VerificationResult.SUFFICIENT →
        "sufficient".toList <:+: (pyLower raw).toList) := by
  refine ⟨fun raw => rfl, by decide, by decide, by decide, by decide, fun raw h => ?_⟩
  by_cases hraw : raw = ""
  · rw [hraw] at h; exact absurd h (by decide)
  · have hb : containsSubstr (pyLower (pyStrip raw)) "sufficient" = true := by
      unfold evaluate normalizeText at h
      rw [if_neg hraw] at h
      simp only at h
      split at h
      · exact absurd h (by simp)
      · split at h
        · assumption
        · exact absurd h (by simp)
    have hinf : ("sufficient".toList) <:+: (pyLower (pyStrip raw)).toList :=
      (containsList_iff _ _).mp hb
    rw [toList_pyLower] at hinf ⊢
    exact hinf.trans (List.IsInfix.map Char.toLower (pyStrip_toList_within raw))

/-- Witness for C2: the final implication applied at the concrete response
"Sufficient.". -/
theorem C2_verification_classification_witness :
    "sufficient".toList <:+: (pyLower "Sufficient.").toList :=
  C2_verification_classification.2.2.2.2.2 "Sufficient." (by decide)

/-- C4: `PlanningService.truncate_plan` leaves the plan unchanged when the
trimmed, lower-cased decision is "add step" or when the decision does not
parse as an integer (including the empty decision); it empties the plan for a
parsed integer k ≤ 0 and keeps the first min(len(plan), k) steps for k ≥ 1;
and the spec's four concrete examples hold. -/
theorem C4_truncate_plan :
    (∀ (plan : List String) (decision : String),
        pyLower (pyStrip decision) = "add step" → truncatePlan plan decision = plan) ∧
    (∀ (plan : List String) (decision : String) (k : Int),
        pyInt decision = some k → k ≤ 0 → truncatePlan plan decision = []) ∧
    (∀ (plan : List String) (decision : String) (k : Int),
        pyInt decision = some k → 1 ≤ k →
          truncatePlan plan decision = plan.take (min plan.length k.toNat)) ∧
    (∀ (plan : List String) (decision : String),
        pyInt decision = none → truncatePlan plan decision = plan) ∧
    (∀ plan : List String, truncatePlan plan "Add Step" = plan) ∧
    (∀ plan : List String, truncatePlan plan "0" = []) ∧
    (∀ plan : List String, truncatePlan plan "not a number" = plan) ∧
    truncatePlan ["a", "b", "c"] "2" = ["a", "b"] :=
  ⟨truncatePlan_addstep, truncatePlan_int_nonpos, truncatePlan_int_pos,
    truncatePlan_nonint,
    fun plan => truncatePlan_addstep plan "Add Step" (by decide),
    fun plan => truncatePlan_int_nonpos plan "0" 0 (by decide) (by decide),
    fun plan => truncatePlan_nonint plan "not a number" (by decide),
    by decide⟩

/-- Witness for C4: the rollback case applied to a concrete plan and the
decision text " 2 " (whitespace exercising the trimming). -/
theorem C4_truncate_plan_witness :
    truncatePlan ["s1", "s2", "s3"] " 2 " =
      (["s1", "s2", "s3"] : List String).take (min 3 (2 : Int).toNat) :=
  C4_truncate_plan.2.2.1 ["s1", "s2", "s3"] " 2 " 2 (by decide) (by decide)

/-- C5: each debug-retry loop (`SolutionExecutionService.execute` and
`AnalyzerService._analyze_file`) performs at most `max_attempts` sandbox runs
and at most `max_attempts - 1` fixer invocations; every run except possibly
the last one fails, and when the loop ends on a successful run it returns
that run's script and result (solution loop) or that run's script and
normalized output (analyzer loop) immediately. -/
theorem C5_debug_retry_budget :
    (∀ (env : SolutionExecEnv) (dataInfo script : String),
        (executeService env dataInfo script).trace.length ≤ env.max_attempts ∧
        (executeService env dataInfo script).fixes ≤ env.max_attempts - 1 ∧
        (∀ p ∈ (executeService env dataInfo script).trace.dropLast,
          p.2.success = false) ∧
        ((executeService env dataInfo script).result.success = true →
          (executeService env dataInfo script).trace.getLast? =
            some ((executeService env dataInfo script).code,
              (executeService env dataInfo script).result))) ∧
    (∀ (env : AnalyzerEnv) (dataFile : String),
        (analyzeFile env dataFile).trace.length ≤ env.max_attempts ∧
        (analyzeFile env dataFile).fixes ≤ env.max_attempts - 1 ∧
        (∀ p ∈ (analyzeFile env dataFile).trace.dropLast, p.2.success = false) ∧
        (∀ p, (analyzeFile env dataFile).trace.getLast? = some p →
          p.2.success = true →
          (analyzeFile env dataFile).desc.script = p.1 ∧
          (analyzeFile env dataFile).desc.description = normalizeText p.2.output)) := by
  constructor
  · intro env dataInfo script
    refine ⟨?_, ?_, ?_, ?_⟩
    · have := executeFrom_trace_le env dataInfo env.max_attempts 0 script
        { success := false, output := "" } [] 0
      simpa [executeService] using this
    · have := executeFrom_fixes_le env dataInfo env.max_attempts 0 script
        { success := false, output := "" } [] 0
      simpa [executeService] using this
    · have := executeFrom_dropLast_failed env dataInfo env.max_attempts 0 script
        { success := false, output := "" } [] 0 (by intro p hp; cases hp)
      simpa [executeService] using this
    · have := executeFrom_success_last env dataInfo env.max_attempts 0 script
        { success := false, output := "" } [] 0 rfl
      simpa [executeService] using this
  · intro env dataFile
    refine ⟨?_, ?_, ?_, ?_⟩
    · have := analyzeFileFrom_trace_le env dataFile env.max_attempts 0
        (env.generateScript dataFile) "" [] 0
      simpa [analyzeFile] using this
    · have := analyzeFileFrom_fixes_le env dataFile env.max_attempts 0
        (env.generateScript dataFile) "" [] 0
      simpa [analyzeFile] using this
    · have := analyzeFileFrom_dropLast_failed env dataFile env.max_attempts 0
        (env.generateScript dataFile) "" [] 0 (by intro p hp; cases hp)
      simpa [analyzeFile] using this
    · have := analyzeFileFrom_success_last env dataFile env.max_attempts 0
        (env.generateScript dataFile) "" [] 0 (by intro p hp; cases hp)
      simpa [analyzeFile] using this

/-- Witness for C5: the immediate-return property applied to a concrete
environment whose first run succeeds. -/
theorem C5_debug_retry_budget_witness :
    (executeService okEnvS "" "code").trace.getLast? =
      some ((executeService okEnvS "" "code").code,
        (executeService okEnvS "" "code").result) :=
  (C5_debug_retry_budget.1 okEnvS "" "code").2.2.2 (by decide)

/-- Counterexample to C1 as stated: with no configured fixer and a sandbox
that always fails, `SolutionExecutionService.execute` with
`max_attempts = 3` performs three sandbox runs, not exactly one — the
`continue` in the loop re-runs the unchanged script on the remaining
attempts instead of stopping. -/
theorem C1_counterexample :
    (executeService failEnvS "" "print(1)").trace.length = 3 ∧
      (executeService failEnvS "" "print(1)").trace.length ≠ 1 := by
  decide

/-- C1 (amended): whenever a sandbox run fails and the fixer is unavailable
or it is the last attempt, no fixer call happens, but the loop proceeds to
re-run the current script on the remaining attempts rather than stopping;
hence with no configured fixer and all runs failing, both loops perform
exactly `max_attempts` sandbox runs with zero fixer invocations, the script
is returned unchanged, and the returned result carries the failure of the
last run performed. -/
theorem C1_failure_stop_amended :
    (∀ (env : SolutionExecEnv) (dataInfo script : String),
        env.debuggerConfigured = false →
        (∀ (k : Nat) (s : String), (env.run k s).success = false) →
        (executeService env dataInfo script).code = script ∧
        (executeService env dataInfo script).fixes = 0 ∧
        (executeService env dataInfo script).trace.length = env.max_attempts ∧
        (1 ≤ env.max_attempts →
          (executeService env dataInfo script).result =
            env.run (env.max_attempts - 1) script)) ∧
    (∀ (env : AnalyzerEnv) (dataFile : String),
        env.debuggerConfigured = false →
        (∀ (k : Nat) (s : String), (env.run k s).success = false) →
        (analyzeFile env dataFile).desc.script = env.generateScript dataFile ∧
        (analyzeFile env dataFile).fixes = 0 ∧
        (analyzeFile env dataFile).trace.length = env.max_attempts ∧
        (1 ≤ env.max_attempts →
          (analyzeFile env dataFile).desc.description =
            errorDescription env.max_attempts
              (env.run (env.max_attempts - 1) (env.generateScript dataFile)))) ∧
    (∀ (env : SolutionExecEnv) (dataInfo script : String)
        (p : String × ExecutionResult),
        (executeService env dataInfo script).trace.getLast? = some p →
        (executeService env dataInfo script).result = p.2) := by
  refine ⟨?_, ?_, ?_⟩
  · intro env dataInfo script hdbg hfail
    obtain ⟨h1, h2, h3, h4⟩ := executeFrom_nofixer env dataInfo hdbg hfail
      env.max_attempts 0 script { success := false, output := "" } [] 0
    refine ⟨h1, h2, by simpa [executeService] using h3, fun hN => ?_⟩
    rw [executeService, h4, if_neg (by omega)]
    simp
  · intro env dataFile hdbg hfail
    obtain ⟨h1, h2, h3, h4⟩ := analyzeFileFrom_nofixer env dataFile hdbg hfail
      env.max_attempts 0 (env.generateScript dataFile) "" [] 0
    refine ⟨h1, h2, by simpa [analyzeFile] using h3, fun hN => ?_⟩
    rw [analyzeFile, h4, if_neg (by omega)]
    simp
  · intro env dataInfo script p hp
    exact executeFrom_result_last env dataInfo env.max_attempts 0 script
      { success := false, output := "" } [] 0 (by intro q hq; cases hq) p hp

/-- Witness for C1 (amended): the no-fixer clauses applied to the concrete
all-failing environments. -/
theorem C1_failure_stop_amended_witness :
    (executeService failEnvS "" "print(1)").code = "print(1)" ∧
      (executeService failEnvS "" "print(1)").result = failEnvS.run 2 "print(1)" ∧
      (analyzeFile failEnvA "data.csv").trace.length = 3 := by
  obtain ⟨h1, -, -, h4⟩ :=
    C1_failure_stop_amended.1 failEnvS "" "print(1)" rfl (fun _ _ => rfl)
  obtain ⟨-, -, h3, -⟩ :=
    C1_failure_stop_amended.2.1 failEnvA "data.csv" rfl (fun _ _ => rfl)
  exact ⟨h1, h4 (by decide), h3⟩

/-- C3: at a Verify step, a SUFFICIENT verdict routes to Finalize with reason
"verified" (even when the round cap is reached at the same step, since the
clause is unconditional in the iteration count); otherwise, if the
incremented iteration count has reached `max_refinement_rounds`, the machine
routes to Finalize with reason "max_rounds" without visiting Route; otherwise
it routes to Route and leaves the finalization reason untouched. -/
theorem C3_verify_routing :
    ∀ (cfg : Config) (raw : String) (s : DSStarState),
      ((evaluate raw).result = VerificationResult.SUFFICIENT →
        routeAfterVerify cfg (applyVerify cfg raw s) = "verified" ∧
        phaseAfterVerify cfg (applyVerify cfg raw s) = Phase.finalize ∧
        (applyVerify cfg raw s).finalization_reason = some "verified") ∧
      ((evaluate raw).result = VerificationResult.INSUFFICIENT →
        cfg.max_refinement_rounds ≤ (applyVerify cfg raw s).iteration →
        routeAfterVerify cfg (applyVerify cfg raw s) = "maxed" ∧
        phaseAfterVerify cfg (applyVerify cfg raw s) = Phase.finalize ∧
        (applyVerify cfg raw s).finalization_reason = some "max_rounds") ∧
      ((evaluate raw).result = VerificationResult.INSUFFICIENT →
        (applyVerify cfg raw s).iteration < cfg.max_refinement_rounds →
        routeAfterVerify cfg (applyVerify cfg raw s) = "continue" ∧
        phaseAfterVerify cfg (applyVerify cfg raw s) = Phase.router ∧
        (applyVerify cfg raw s).finalization_reason = s.finalization_reason) := by
  intro cfg raw s
  refine ⟨fun h => ?_, fun h hit => ?_, fun h hit => ?_⟩
  · simp [applyVerify, routeAfterVerify, phaseAfterVerify, h]
  · have hit' : cfg.max_refinement_rounds ≤ s.iteration + 1 := by
      simpa [applyVerify, h, apply_ite DSStarState.iteration, ite_self] using hit
    simp [applyVerify, routeAfterVerify, phaseAfterVerify, h, hit']
  · have hit' : s.iteration + 1 < cfg.max_refinement_rounds := by
      simpa [applyVerify, h, apply_ite DSStarState.iteration, ite_self] using hit
    simp [applyVerify, routeAfterVerify, phaseAfterVerify, h, hit',
      Nat.not_le.mpr hit', Nat.le_of_lt hit']

/-- Witness for C3: the max-rounds clause at a concrete configuration with
`max_refinement_rounds = 1`, an INSUFFICIENT response and the initial
state. -/
theorem C3_verify_routing_witness :
    routeAfterVerify ⟨1⟩ (applyVerify ⟨1⟩ "insufficient" (initialState "q" [])) =
        "maxed" ∧
      (applyVerify ⟨1⟩ "insufficient" (initialState "q" [])).finalization_reason =
        some "max_rounds" := by
  obtain ⟨h1, -, h3⟩ :=
    (C3_verify_routing ⟨1⟩ "insufficient" (initialState "q" [])).2.1
      (by decide) (by decide)
  exact ⟨h1, h3⟩

theorem step_iteration_le {cfg : Config} {c c' : Phase × DSStarState}
    (h : Step cfg c c') : c.2.iteration ≤ c'.2.iteration := by
  cases h with
  | verify s raw =>
    cases hres : (evaluate raw).result with
    | SUFFICIENT => simp [applyVerify, hres]
    | INSUFFICIENT =>
      simp [applyVerify, hres, apply_ite DSStarState.iteration, ite_self,
        Nat.le_succ]
  | _ => exact Nat.le_refl _

/-- C6: the session's iteration counter starts at 0, a Verify step adds
exactly 1 to it when the verdict is INSUFFICIENT and leaves it unchanged
otherwise, every non-Verify phase leaves it unchanged, and along any
reachable sequence of steps of the state machine it is monotonically
non-decreasing. -/
theorem C6_iteration_monotone :
    (∀ (query : String) (dataFiles : List String),
        (initialState query dataFiles).iteration = 0) ∧
    (∀ (cfg : Config) (raw : String) (s : DSStarState),
        (applyVerify cfg raw s).iteration =
          s.iteration +
            (if (evaluate raw).result = VerificationResult.INSUFFICIENT then 1 else 0)) ∧
    (∀ (cfg : Config) (c c' : Phase × DSStarState),
        Step cfg c c' → c.1 ≠ Phase.verify → c'.2.iteration = c.2.iteration) ∧
    (∀ (cfg : Config) (c c' : Phase × DSStarState),
        Relation.ReflTransGen (Step cfg) c c' → c.2.iteration ≤ c'.2.iteration) := by
  refine ⟨fun _ _ => rfl, fun cfg raw s => ?_, fun cfg c c' hstep hne => ?_,
    fun cfg c c' h => ?_⟩
  · cases hres : (evaluate raw).result with
    | SUFFICIENT => simp [applyVerify, hres]
    | INSUFFICIENT =>
      simp [applyVerify, hres, apply_ite DSStarState.iteration, ite_self]
  · cases hstep with
    | verify s raw => exact absurd rfl hne
    | _ => rfl
  · induction h with
    | refl => exact Nat.le_refl _
    | tail hsteps hstep ih => exact Nat.le_trans ih (step_iteration_le hstep)

/-- Witness for C6: monotonicity applied along the single concrete step from
the Analyze phase on the initial state. -/
theorem C6_iteration_monotone_witness :
    (initialState "q" ["f.csv"]).iteration ≤
      ({ initialState "q" ["f.csv"] with
          data_descriptions := [⟨"f.csv", "a file", "code"⟩] } : DSStarState).iteration :=
  C6_iteration_monotone.2.2.2 ⟨10⟩
    (Phase.analyze, initialState "q" ["f.csv"])
    (Phase.plannerInitial,
      { initialState "q" ["f.csv"] with
          data_descriptions := [⟨"f.csv", "a file", "code"⟩] })
    (Relation.ReflTransGen.single
      (Step.analyze (initialState "q" ["f.csv"]) [⟨"f.csv", "a file", "code"⟩]))

/-- C7: `PythonScriptRunner.run` never raises: it returns exactly one
`ExecutionResult` in one of four outcome classes — exit code 0 succeeds with
stdout and empty error/traceback; a non-zero exit fails with stdout, stderr
and stderr; a timeout fails with the fixed timeout message and traceback; a
host-side failure fails with the exception text and the host stack trace.
Success occurs exactly for exit code 0. -/
theorem C7_sandbox_outcomes :
    (∀ (rc : Int) (out err : String), rc = 0 →
        runResult (SubprocessOutcome.completed rc out err) =
          { success := true, output := out, error := "", traceback := "" }) ∧
    (∀ (rc : Int) (out err : String), rc ≠ 0 →
        runResult (SubprocessOutcome.completed rc out err) =
          { success := false, output := out, error := err, traceback := err }) ∧
    (runResult SubprocessOutcome.timeoutExpired =
      { success := false, output := "", error := "Execution timeout",
        traceback := "Script execution exceeded timeout limit" }) ∧
    (∀ msg tr : String,
        runResult (SubprocessOutcome.hostFault msg tr) =
          { success := false, output := "", error := msg, traceback := tr }) ∧
    (∀ o : SubprocessOutcome, (runResult o).success = true ↔
        ∃ out err, o = SubprocessOutcome.completed 0 out err) := by
  refine ⟨fun rc out err h => ?_, fun rc out err h => ?_, rfl,
    fun msg tr => rfl, fun o => ?_⟩
  · simp [runResult, h]
  · simp [runResult, h]
  · cases o with
    | completed rc out err =>
      by_cases h : rc = 0
      · subst h
        simp [runResult]
      · simp [runResult, h]
    | createFault msg tr => simp [runResult]
    | writeFault msg tr => simp [runResult]
    | timeoutExpired => simp [runResult]
    | hostFault msg tr => simp [runResult]

/-- Witness for C7: the zero-exit and non-zero-exit clauses at concrete
outcomes. -/
theorem C7_sandbox_outcomes_witness :
    runResult (SubprocessOutcome.completed 0 "hello" "") =
        { success := true, output := "hello", error := "", traceback := "" } ∧
      runResult (SubprocessOutcome.completed 1 "" "oops") =
        { success := false, output := "", error := "oops", traceback := "oops" } :=
  ⟨C7_sandbox_outcomes.1 0 "hello" "" rfl,
    C7_sandbox_outcomes.2.1 1 "" "oops" (by decide)⟩

/-- Counterexample to C8 as stated: a host-side exception raised while
writing the temporary file (after `tempfile.NamedTemporaryFile` has created
it) is an exit path of `PythonScriptRunner.run` on which the file is created
but never unlinked, because `os.unlink` lives in the inner `try/finally`,
which that exception never enters. -/
theorem C8_counterexample :
    RunEvent.createTemp ∈ runEvents (SubprocessOutcome.writeFault "disk full" "tb") ∧
      RunEvent.unlinkTemp ∉ runEvents (SubprocessOutcome.writeFault "disk full" "tb") := by
  decide

/-- C8 (amended): on every exit path of `PythonScriptRunner.run` except a
fault during the temp-file write itself — i.e. normal exit, non-zero exit,
timeout, and host-side exceptions raised by the spawn — a created temporary
file is deleted before the call returns; in particular the timeout path
unlinks it. -/
theorem C8_temp_cleanup_amended :
    (∀ o : SubprocessOutcome,
        (∀ msg tr, o ≠ SubprocessOutcome.writeFault msg tr) →
        RunEvent.createTemp ∈ runEvents o →
        RunEvent.unlinkTemp ∈ runEvents o) ∧
    RunEvent.unlinkTemp ∈ runEvents SubprocessOutcome.timeoutExpired := by
  refine ⟨fun o hnw hc => ?_, by decide⟩
  cases o with
  | completed rc out err => simp [runEvents]
  | createFault msg tr => simp [runEvents] at hc
  | writeFault msg tr => exact absurd rfl (hnw msg tr)
  | timeoutExpired => simp [runEvents]
  | hostFault msg tr => simp [runEvents]

/-- Witness for C8 (amended): the cleanup guarantee applied to the host-fault
exit path. -/
theorem C8_temp_cleanup_amended_witness :
    RunEvent.unlinkTemp ∈ runEvents (SubprocessOutcome.hostFault "boom" "tb") :=
  C8_temp_cleanup_amended.1 (SubprocessOutcome.hostFault "boom" "tb")
    (fun msg tr h => SubprocessOutcome.noConfusion h) (by decide)

/-- C9: `AnalyzerService.select_relevant` returns the description list
unchanged unless the retriever is enabled and the list is strictly longer
than `top_k_files`; when it reduces, the result is exactly the prefix of the
first `top_k_files` descriptions; and the result never depends on the
query. -/
theorem C9_select_relevant :
    ∀ (env : AnalyzerEnv) (query : String) (descs : List DataDescription),
      (¬(env.use_retriever = true ∧ env.top_k_files < descs.length) →
        selectRelevant env query descs = descs) ∧
      (env.use_retriever = true → env.top_k_files < descs.length →
        selectRelevant env query descs = descs.take env.top_k_files) ∧
      (∀ query2 : String,
        selectRelevant env query descs = selectRelevant env query2 descs) := by
  intro env query descs
  refine ⟨fun h => ?_, fun h1 h2 => ?_, fun query2 => rfl⟩
  · unfold selectRelevant
    rw [if_pos]
    exact h
  · unfold selectRelevant
    rw [if_neg (by simp [h1, h2])]
    rfl

/-- Witness for C9: both clauses at concrete environments — the disabled
retriever leaves two descriptions alone, and an enabled retriever with
`top_k_files = 1` takes the first of two. -/
theorem C9_select_relevant_witness :
    selectRelevant failEnvA "q" [⟨"a", "d1", "s1"⟩, ⟨"b", "d2", "s2"⟩] =
        [⟨"a", "d1", "s1"⟩, ⟨"b", "d2", "s2"⟩] ∧
      selectRelevant { failEnvA with use_retriever := true, top_k_files := 1 } "q"
          [⟨"a", "d1", "s1"⟩, ⟨"b", "d2", "s2"⟩] = [⟨"a", "d1", "s1"⟩] :=
  ⟨(C9_select_relevant failEnvA "q" [⟨"a", "d1", "s1"⟩, ⟨"b", "d2", "s2"⟩]).1
      (by decide),
    (C9_select_relevant { failEnvA with use_retriever := true, top_k_files := 1 } "q"
        [⟨"a", "d1", "s1"⟩, ⟨"b", "d2", "s2"⟩]).2.1 (by decide) (by decide)⟩

/-- C10: the effective timeout of `PythonScriptRunner.run` is computed by
Python truthiness, so both an explicit timeout of 0 (as passable through
`DSSTAR.execute_code`) and an absent timeout fall back to the configured
default; when the configured default is non-zero, no requested value can
produce an effective timeout of 0, so a strictly-zero wall-clock limit cannot
be requested through this interface (while any non-zero request is honoured). -/
theorem C10_timeout_zero_falsy :
    ∀ defaultTimeout : Int,
      effectiveTimeout (some 0) defaultTimeout = defaultTimeout ∧
      effectiveTimeout none defaultTimeout = defaultTimeout ∧
      executeCodeTimeout 0 defaultTimeout = defaultTimeout ∧
      (∀ t : Int, defaultTimeout ≠ 0 →
        effectiveTimeout (some t) defaultTimeout ≠ 0) ∧
      (∀ t : Int, t ≠ 0 → effectiveTimeout (some t) defaultTimeout = t) := by
  intro d
  refine ⟨by simp [effectiveTimeout], rfl, by simp [executeCodeTimeout, effectiveTimeout],
    fun t hd => ?_, fun t ht => by simp [effectiveTimeout, ht]⟩
  by_cases ht : t = 0
  · simp [effectiveTimeout, ht]
    exact hd
  · simp [effectiveTimeout, ht]

/-- Witness for C10: with the runner's default of 30, requesting 0 yields 30
and requesting 5 yields a non-zero effective timeout. -/
theorem C10_timeout_zero_falsy_witness :
    executeCodeTimeout 0 30 = 30 ∧ effectiveTimeout (some 5) 30 ≠ 0 :=
  ⟨(C10_timeout_zero_falsy 30).2.2.1,
    (C10_timeout_zero_falsy 30).2.2.2.1 5 (by decide)⟩

end DSStarModel
